import Mathlib

/-!
Shallow embedding of the discovery-and-application workflow of `src/dicev2.py`
(the "dice-automation-apply" script), together with theorems settling the
specification's claims about it.

Modelling conventions:
* Browser interactions are modelled by the data they return.  A listing page is
  a `PageOutcome` (navigation failure, or a list of `Card`s); a candidate's
  detail page is a `CandidateEnv` recording what each browser call would yield
  (navigation success, title element text, skills-span texts, clickability of
  the two buttons, and the operator's raw response in supervised mode).
* The Python `set` `applied_jobs` and the full-rewrite file `applied_jobs.txt`
  are both modelled as `Finset String`.
* Printing has no effect on program state and is omitted.
-/

namespace Dice

/-- Test whether the first list of characters is an initial segment of the
second; used to model Python's substring operator `in` on strings. -/
def strStarts : List Char → List Char → Bool
  | [], _ => true
  | _ :: _, [] => false
  | p :: ps, c :: cs => p == c && strStarts ps cs

/-- Test whether `pat` occurs contiguously inside the second list of
characters; models Python's `pat in text` for strings. -/
def strHas (pat : List Char) : List Char → Bool
  | [] => strStarts pat []
  | c :: cs => strStarts pat (c :: cs) || strHas pat cs

/-- The fixed keyword list of `dicev2.py` lines 205-225 (all lowercase). -/
def keywords : List String :=
  [ "quality assurance"
  , "software testing"
  , "test automation"
  , "manual testing"
  , "agile methodologies"
  , "scrum"
  , "regression testing"
  , "functional testing"
  , "performance testing"
  , "user acceptance testing"
  , "test cases"
  , "defect tracking"
  , "bug reporting"
  , "selenium"
  , "continuous integration"
  , "exploratory testing"
  , "test documentation"
  , "test strategy"
  , "web automation" ]

/-- One listing card: its visible text (`card.text`) and its identifier
attribute (`card.get_attribute("id")`); an absent or empty attribute is
modelled as `""`, matching Python's falsiness test `if job_id:`. -/
structure Card where
  text : String
  id : String
deriving DecidableEq, Repr

/-- What the browser yields for one result page: a navigation failure, or the
list of elements matching the card selector (possibly empty). -/
inductive PageOutcome where
  | navFail
  | loaded (cards : List Card)
deriving DecidableEq, Repr

/-- Lowercasing of a string viewed as its character list; models Python's
`str.lower()` (and Lean's `String.toLower`) character by character. -/
def lowerChars (s : String) : List Char :=
  s.toList.map Char.toLower

/-- Processing of one card inside the page loop, `dicev2.py` lines 254-264:
lowercase the card text, test the keywords by substring, and if any matches
and the id attribute is non-empty, append the derived detail URL. -/
def processCard (links : List String) (card : Card) : List String :=
  let job_text := lowerChars card.text
  if keywords.any (fun kw => strHas kw.toList job_text) then
    if card.id ≠ "" then
      links ++ ["https://www.dice.com/job-detail/" ++ card.id]
    else links
  else links

/-- The pagination loop of `dicev2.py` lines 231-266 over a stream of page
outcomes: a navigation failure or an empty card list terminates the loop,
otherwise every card of the page is processed in order and the loop continues
with the next page. -/
def discoverLoop : List PageOutcome → List String → List String
  | [], links => links
  | PageOutcome.navFail :: _, links => links
  | PageOutcome.loaded cards :: rest, links =>
    if cards.isEmpty then links
    else discoverLoop rest (cards.foldl processCard links)

/-- The Discovery Sequence `job_detail_links` built from a stream of pages,
starting from the empty list (`dicev2.py` line 227). -/
def job_detail_links (pages : List PageOutcome) : List String :=
  discoverLoop pages []

/-- Whitespace-stripping of a character list on both ends; models Python's
`str.strip()` with no argument. -/
def trimChars (l : List Char) : List Char :=
  (((l.dropWhile Char.isWhitespace).reverse).dropWhile Char.isWhitespace).reverse

/-- String form of `trimChars`; models Python's `s.strip()`. -/
def pyStrip (s : String) : String :=
  String.mk (trimChars s.toList)

/-- String form of `lowerChars`; models Python's `s.lower()`. -/
def pyLower (s : String) : String :=
  String.mk (lowerChars s)

/-- What the browser and the operator yield for one candidate's detail page:
whether `driver.get(link)` succeeds, the title element's raw text when the
title lookup succeeds, the raw texts of the skill `<span>`s when the skills
container lookup succeeds, whether each of the two submission clicks succeeds
within its timeout, and the operator's raw response in supervised mode. -/
structure CandidateEnv where
  nav_ok : Bool
  title_found : Option String
  skill_spans : Option (List String)
  apply_click_ok : Bool
  submit_click_ok : Bool
  user_choice : String
deriving DecidableEq, Repr

/-- The computation of `job_title_text` in `dicev2.py` lines 313-321: the
stripped title text on success, the empty string when the lookup fails. -/
def job_title_text (env : CandidateEnv) : String :=
  match env.title_found with
  | some t => pyStrip t
  | none => ""

/-- The computation of `skills_text` in `dicev2.py` lines 314-333: strip each
span's text, drop the empty ones, and comma-join; the empty string when the
container lookup fails. -/
def skills_text (env : CandidateEnv) : String :=
  match env.skill_spans with
  | some spans =>
    let skills_list := (spans.map pyStrip).filter (fun x => x ≠ "")
    String.intercalate ", " skills_list
  | none => ""

/-- The decision policy of `dicev2.py` lines 336-349 computing `apply_job`:
mode `"1"` always applies; mode `"2"` strips and lowercases the operator's
response, substitutes `"y"` for an empty response, and applies iff it starts
with `"y"`; every other mode value never applies. -/
def apply_job (apply_mode user_choice : String) : Bool :=
  if apply_mode = "1" then true
  else if apply_mode = "2" then
    let uc := pyLower (pyStrip user_choice)
    let uc2 := if uc = "" then "y" else uc
    strStarts "y".toList uc2.toList
  else false

/-- Whether the submission path fully completes for a candidate: the decision
is to apply, the "Apply now" click succeeds, and the "Submit" click succeeds
(the source attempts the second click only after the first one succeeded,
`dicev2.py` lines 352-364). -/
def submissionCompleted (apply_mode : String) (env : CandidateEnv) : Bool :=
  apply_job apply_mode env.user_choice && env.apply_click_ok && env.submit_click_ok

/-- One output row of `detailed_job_data`, `dicev2.py` lines 372-377: the keys
"Job Detail Link", "Job Title", "Skills", "Applied". -/
structure JobRecord where
  link : String
  title : String
  skills : String
  applied : String
deriving DecidableEq, Repr

/-- The mutable state of the per-candidate loop: the in-memory set
`applied_jobs`, the contents of the durable file `applied_jobs.txt`
(`applied_jobs_file`, rewritten from the whole set), and the accumulated list
`detailed_job_data`. -/
structure WorkState where
  applied_jobs : Finset String
  applied_jobs_file : Finset String
  detailed_job_data : List JobRecord
deriving DecidableEq

/-- Result of processing one candidate: continue with the next candidate, or
halt the whole remaining loop (the `break` on navigation failure). -/
inductive StepResult where
  | cont (s : WorkState)
  | halt (s : WorkState)
deriving DecidableEq

/-- The state carried by a step result. -/
def StepResult.state : StepResult → WorkState
  | StepResult.cont s => s
  | StepResult.halt s => s

/-- Whether the step result halts the remaining loop. -/
def StepResult.halted : StepResult → Bool
  | StepResult.cont _ => false
  | StepResult.halt _ => true

/-- One iteration of the loop body of `dicev2.py` lines 298-382 for one
candidate link.  If the link is already in `applied_jobs`, `continue` (state
unchanged).  If navigation to the link fails, `break` (state unchanged, rest
of the loop abandoned).  Otherwise extract title and skills best-effort,
compute the decision, attempt the clicks (their failures are caught and only
printed, leaving no trace in the state, lines 352-366), add the link to
`applied_jobs`, append the row with `Applied = "Yes" iff apply_job`, and
rewrite the whole set to the durable file. -/
def processCandidate (apply_mode link : String) (env : CandidateEnv)
    (s : WorkState) : StepResult :=
  if link ∈ s.applied_jobs then StepResult.cont s
  else if env.nav_ok = false then StepResult.halt s
  else
    let titleT := job_title_text env
    let skillsT := skills_text env
    let applyJob := apply_job apply_mode env.user_choice
    let newSet := insert link s.applied_jobs
    StepResult.cont
      { applied_jobs := newSet
      , applied_jobs_file := newSet
      , detailed_job_data := s.detailed_job_data ++
          [{ link := link, title := titleT, skills := skillsT
           , applied := if applyJob then "Yes" else "No" }] }

/-- The whole candidate loop of `dicev2.py` lines 298-382 over a list of
(link, detail-page environment) pairs: process candidates in order, stopping
early when a step halts. -/
def runCandidates (apply_mode : String) :
    List (String × CandidateEnv) → WorkState → WorkState
  | [], s => s
  | (link, env) :: rest, s =>
    match processCandidate apply_mode link env s with
    | StepResult.cont s2 => runCandidates apply_mode rest s2
    | StepResult.halt s2 => s2

/-- Modelled from the spec's words for C10: a supervised response is
affirmative exactly when its whitespace-stripped, lowercased form starts with
the letter `y`, with the empty response defaulting to affirmative. -/
def affirmative (resp : String) : Bool :=
  let s := pyLower (pyStrip resp)
  if s = "" then true else strStarts "y".toList s.toList

/-- A detail-page environment for a candidate where everything succeeds. -/
def envAuto : CandidateEnv :=
  { nav_ok := true, title_found := none, skill_spans := none
  , apply_click_ok := true, submit_click_ok := true, user_choice := "" }

/-- A detail-page environment where both submission clicks time out. -/
def envClickFail : CandidateEnv :=
  { nav_ok := true, title_found := some "Dev", skill_spans := none
  , apply_click_ok := false, submit_click_ok := false, user_choice := "" }

/-- A detail-page environment where navigation to the detail page fails. -/
def envNavFail : CandidateEnv :=
  { nav_ok := false, title_found := none, skill_spans := none
  , apply_click_ok := true, submit_click_ok := true, user_choice := "" }

/-- C5 (keyword gate): for a listing card whose lowercased display text
contains none of the 19 keywords as a substring, processing the card leaves
the running link list unchanged — no candidate is produced — regardless of
the value of the identifier attribute. -/
theorem C5_keyword_gate (links : List String) (card : Card)
    (h : keywords.any (fun kw => strHas kw.toList (lowerChars card.text)) = false) :
    processCard links card = links := by
  simp only [processCard]
  rw [h]
  simp

/-- Witness for C5 on a concrete card whose text matches no keyword but whose
identifier attribute is non-empty. -/
theorem C5_keyword_gate_witness :
    keywords.any
        (fun kw => strHas kw.toList (lowerChars "Java Backend Developer")) = false
      ∧ processCard [] ⟨"Java Backend Developer", "zzz"⟩ = [] :=
  ⟨by decide, C5_keyword_gate [] ⟨"Java Backend Developer", "zzz"⟩ (by decide)⟩

/-- C6 (decision policy): mode `"1"` yields Apply for every operator
response (so no prompt can influence it), mode `"2"` with the empty response
defaults to Apply, and any other mode value yields NoApply for every
response. -/
theorem C6_decision_policy :
    (∀ user_choice : String, apply_job "1" user_choice = true)
      ∧ apply_job "2" "" = true
      ∧ (∀ apply_mode user_choice : String, apply_mode ≠ "1" → apply_mode ≠ "2" →
          apply_job apply_mode user_choice = false) := by
  refine ⟨fun uc => by simp [apply_job], by decide, fun m uc h1 h2 => by simp [apply_job, h1, h2]⟩

/-- Witness for C6 at the concrete modes `"1"`, `"2"` and `"0"`. -/
theorem C6_decision_policy_witness :
    apply_job "1" "n" = true ∧ apply_job "2" "" = true ∧ apply_job "0" "y" = false :=
  ⟨C6_decision_policy.1 "n", C6_decision_policy.2.1,
    C6_decision_policy.2.2 "0" "y" (by decide) (by decide)⟩

/-- C10 (supervised affirmative): in mode `"2"` the decision is Apply exactly
when the stripped, lowercased response starts with `y`, the empty response
defaulting to affirmative. -/
theorem C10_supervised_affirmative (resp : String) :
    apply_job "2" resp = affirmative resp := by
  by_cases h : pyLower (pyStrip resp) = "" <;> simp [apply_job, affirmative, h]
  decide

/-- C1 counterexample: in Auto mode, when the "Apply now" click fails, the
submission path does not complete, yet the appended Job Record carries
`Applied = "Yes"` — refuting the claim that `applied = yes` holds iff the
submission path fully completed. -/
theorem C1_counterexample :
    ((processCandidate "1" "u1" envClickFail ⟨∅, ∅, []⟩).state.detailed_job_data.map
        JobRecord.applied = ["Yes"])
      ∧ submissionCompleted "1" envClickFail = false := by
  decide

/-- C1 amended: for every candidate that reaches the Recorded state, the Job
Record's `Applied` field is `"Yes"` iff the decision was Apply, independent
of the two click outcomes; in particular a candidate whose clicks fail is
still recorded, with `Applied = "Yes"` whenever the decision was Apply. -/
theorem C1_applied_reflects_decision (apply_mode link : String) (env : CandidateEnv)
    (s : WorkState) (hmem : link ∉ s.applied_jobs) (hnav : env.nav_ok = true) :
    (processCandidate apply_mode link env s).state.detailed_job_data.map JobRecord.applied
      = s.detailed_job_data.map JobRecord.applied
        ++ [if apply_job apply_mode env.user_choice then "Yes" else "No"] := by
  simp [processCandidate, hmem, hnav, StepResult.state]

/-- Witness for C1's amended theorem at a concrete candidate whose clicks
fail. -/
theorem C1_applied_reflects_decision_witness :
    (processCandidate "1" "u1" envClickFail ⟨∅, ∅, []⟩).state.detailed_job_data.map
        JobRecord.applied
      = (⟨∅, ∅, []⟩ : WorkState).detailed_job_data.map JobRecord.applied
        ++ [if apply_job "1" envClickFail.user_choice then "Yes" else "No"] :=
  C1_applied_reflects_decision "1" "u1" envClickFail ⟨∅, ∅, []⟩ (by decide) rfl

/-- C2 (idempotency): when every candidate link of the sequence is already in
the in-memory ledger, the whole loop is a no-op — the state (ledger, durable
file, and Job Record list) is returned unchanged, every candidate being
skipped by the membership check before any navigation. -/
theorem C2_idempotency (apply_mode : String) (cands : List (String × CandidateEnv))
    (s : WorkState) (h : ∀ p ∈ cands, p.1 ∈ s.applied_jobs) :
    runCandidates apply_mode cands s = s := by
  induction cands with
  | nil => rfl
  | cons p rest ih =>
    obtain ⟨link, env⟩ := p
    have hl : link ∈ s.applied_jobs := h (link, env) (List.mem_cons_self _ _)
    simp only [runCandidates, processCandidate, if_pos hl]
    exact ih fun q hq => h q (List.mem_cons_of_mem _ hq)

/-- Witness for C2: a one-candidate sequence whose link is already in the
ledger leaves the state untouched. -/
theorem C2_idempotency_witness :
    runCandidates "1" [("a", envAuto)] ⟨{"a"}, {"a"}, []⟩
      = (⟨{"a"}, {"a"}, []⟩ : WorkState) :=
  C2_idempotency "1" [("a", envAuto)] ⟨{"a"}, {"a"}, []⟩ (by decide)

/-- C7 (fatal navigation failure): when navigation to a not-yet-processed
candidate's detail page fails, the loop halts with the state exactly as it
was — whatever tail of candidates remained is never processed, while the Job
Records and the durable ledger accumulated in the state so far are kept and
flushed unchanged. -/
theorem C7_nav_failure_halts (apply_mode link : String) (env : CandidateEnv)
    (rest : List (String × CandidateEnv)) (s : WorkState)
    (hmem : link ∉ s.applied_jobs) (hnav : env.nav_ok = false) :
    runCandidates apply_mode ((link, env) :: rest) s = s := by
  simp [runCandidates, processCandidate, hmem, hnav]

/-- Witness for C7: the first candidate's navigation fails, and the second
candidate — which would otherwise be applied to — is never processed. -/
theorem C7_nav_failure_halts_witness :
    runCandidates "1" [("a", envNavFail), ("b", envAuto)] ⟨∅, ∅, []⟩
      = (⟨∅, ∅, []⟩ : WorkState) :=
  C7_nav_failure_halts "1" "a" envNavFail [("b", envAuto)] ⟨∅, ∅, []⟩ (by decide) rfl

/-- C8 (partial-extraction record): a candidate whose title extraction
succeeds with non-empty stripped text but whose skills-container lookup
fails is not aborted: the step continues, and the appended Job Record has
the non-empty stripped title and the empty skills string. -/
theorem C8_partial_extraction (apply_mode link : String) (env : CandidateEnv)
    (s : WorkState) (hmem : link ∉ s.applied_jobs) (hnav : env.nav_ok = true)
    (t : String) (htitle : env.title_found = some t) (ht : pyStrip t ≠ "")
    (hskills : env.skill_spans = none) :
    (processCandidate apply_mode link env s).halted = false
      ∧ (processCandidate apply_mode link env s).state.detailed_job_data
          = s.detailed_job_data ++
              [{ link := link, title := pyStrip t, skills := ""
               , applied := if apply_job apply_mode env.user_choice then "Yes" else "No" }]
      ∧ pyStrip t ≠ "" := by
  refine ⟨?_, ?_, ht⟩ <;>
    simp [processCandidate, hmem, hnav, StepResult.state, StepResult.halted,
      job_title_text, skills_text, htitle, hskills]

/-- Witness for C8 at a concrete candidate with a title and no skills
container. -/
theorem C8_partial_extraction_witness :
    (processCandidate "1" "u1"
        ⟨true, some " QA Engineer ", none, true, true, ""⟩ ⟨∅, ∅, []⟩).halted = false
      ∧ (processCandidate "1" "u1"
            ⟨true, some " QA Engineer ", none, true, true, ""⟩ ⟨∅, ∅, []⟩).state.detailed_job_data
          = (⟨∅, ∅, []⟩ : WorkState).detailed_job_data ++
              [{ link := "u1", title := pyStrip " QA Engineer ", skills := ""
               , applied := if apply_job "1"
                    (CandidateEnv.user_choice ⟨true, some " QA Engineer ", none, true, true, ""⟩)
                  then "Yes" else "No" }]
      ∧ pyStrip " QA Engineer " ≠ "" :=
  C8_partial_extraction "1" "u1" ⟨true, some " QA Engineer ", none, true, true, ""⟩
    ⟨∅, ∅, []⟩ (by decide) rfl " QA Engineer " rfl (by decide) rfl

/-- Helper for C3: when the durable file initially agrees with the in-memory
ledger and no candidate's navigation fails, running the loop leaves both the
ledger and the durable file equal to the initial ledger together with all the
candidates' links. -/
theorem runCandidates_ledger_eq (apply_mode : String)
    (cands : List (String × CandidateEnv)) (s : WorkState)
    (hstore : s.applied_jobs_file = s.applied_jobs)
    (hnav : ∀ p ∈ cands, p.2.nav_ok = true) :
    (runCandidates apply_mode cands s).applied_jobs
        = s.applied_jobs ∪ (cands.map Prod.fst).toFinset
      ∧ (runCandidates apply_mode cands s).applied_jobs_file
        = s.applied_jobs ∪ (cands.map Prod.fst).toFinset := by
  induction cands generalizing s with
  | nil => exact ⟨by simp [runCandidates], by simp [runCandidates, hstore]⟩
  | cons p rest ih =>
    obtain ⟨link, env⟩ := p
    have hnavhd : env.nav_ok = true := hnav (link, env) (List.mem_cons_self _ _)
    have hnavtl : ∀ q ∈ rest, q.2.nav_ok = true :=
      fun q hq => hnav q (List.mem_cons_of_mem _ hq)
    by_cases hmem : link ∈ s.applied_jobs
    · have hrec : runCandidates apply_mode ((link, env) :: rest) s
          = runCandidates apply_mode rest s := by
        simp only [runCandidates, processCandidate, if_pos hmem]
      have habs : insert link (s.applied_jobs ∪ (rest.map Prod.fst).toFinset)
          = s.applied_jobs ∪ (rest.map Prod.fst).toFinset :=
        Finset.insert_eq_self.mpr (Finset.mem_union_left _ hmem)
      rw [hrec]
      obtain ⟨h1, h2⟩ := ih s hstore hnavtl
      constructor <;> simp [h1, h2, Finset.union_insert, habs]
    · have hrec : runCandidates apply_mode ((link, env) :: rest) s
          = runCandidates apply_mode rest
              { applied_jobs := insert link s.applied_jobs
              , applied_jobs_file := insert link s.applied_jobs
              , detailed_job_data := s.detailed_job_data ++
                  [{ link := link, title := job_title_text env
                   , skills := skills_text env
                   , applied := if apply_job apply_mode env.user_choice
                        then "Yes" else "No" }] } := by
        simp only [runCandidates, processCandidate, if_neg hmem, hnavhd]
        simp
      rw [hrec]
      obtain ⟨h1, h2⟩ := ih
        { applied_jobs := insert link s.applied_jobs
        , applied_jobs_file := insert link s.applied_jobs
        , detailed_job_data := s.detailed_job_data ++
            [{ link := link, title := job_title_text env
             , skills := skills_text env
             , applied := if apply_job apply_mode env.user_choice
                  then "Yes" else "No" }] } rfl hnavtl
      constructor <;>
        simp [h1, h2, Finset.union_insert, Finset.insert_union]

/-- C3 (ledger durability): for every run without navigation failures and
every prefix length `k`, immediately after the first `k` candidates have been
processed the durable file holds exactly the initially loaded ledger entries
together with the links of candidates `1..k` — the whole set having been
rewritten on every processed candidate, no entry can be lost by an
interruption at that point. -/
theorem C3_ledger_durability (apply_mode : String)
    (cands : List (String × CandidateEnv)) (s : WorkState) (k : Nat)
    (hstore : s.applied_jobs_file = s.applied_jobs)
    (hnav : ∀ p ∈ cands, p.2.nav_ok = true) :
    (runCandidates apply_mode (cands.take k) s).applied_jobs_file
      = s.applied_jobs ∪ ((cands.take k).map Prod.fst).toFinset :=
  (runCandidates_ledger_eq apply_mode (cands.take k) s hstore
    fun p hp => hnav p (List.take_subset k cands hp)).2

/-- Witness for C3: one fully processed candidate lands in the durable file
together with the (empty) initial ledger. -/
theorem C3_ledger_durability_witness :
    (runCandidates "1" ([("a", envAuto)].take 1) ⟨∅, ∅, []⟩).applied_jobs_file
      = (⟨∅, ∅, []⟩ : WorkState).applied_jobs
        ∪ (([("a", envAuto)].take 1).map Prod.fst).toFinset :=
  C3_ledger_durability "1" [("a", envAuto)] ⟨∅, ∅, []⟩ 1 rfl (by decide)

/-- Whether a card passes the keyword gate and carries a non-empty identifier
attribute, so that the discovery loop derives a detail URL from it. -/
def cardMatches (card : Card) : Bool :=
  keywords.any (fun kw => strHas kw.toList (lowerChars card.text)) && card.id != ""

/-- The detail URLs contributed by the cards of one page, in card order. -/
def matchedUrls (cards : List Card) : List String :=
  (cards.filter cardMatches).map fun c => "https://www.dice.com/job-detail/" ++ c.id

/-- The pages the discovery loop actually processes: the longest initial
segment of the stream consisting of loaded, non-empty pages. -/
def pagesTaken : List PageOutcome → List (List Card)
  | [] => []
  | PageOutcome.navFail :: _ => []
  | PageOutcome.loaded cards :: rest =>
    if cards.isEmpty then [] else cards :: pagesTaken rest

/-- Helper for C4: processing one card appends exactly its contribution. -/
theorem processCard_eq (links : List String) (card : Card) :
    processCard links card = links ++ matchedUrls [card] := by
  by_cases h1 : keywords.any (fun kw => strHas kw.toList (lowerChars card.text)) = true
  · by_cases h2 : card.id = ""
    · have hcm : cardMatches card = false := by
        simp [cardMatches, h2]
      simp only [processCard]
      rw [h1]
      simp [matchedUrls, List.filter_cons, hcm, h2]
    · have hcm : cardMatches card = true := by
        simp only [cardMatches]
        rw [h1]
        simp [h2]
      simp only [processCard]
      rw [h1]
      simp [matchedUrls, List.filter_cons, hcm, h2]
  · have h1f : keywords.any (fun kw => strHas kw.toList (lowerChars card.text)) = false := by
      simpa using h1
    have hcm : cardMatches card = false := by
      simp only [cardMatches]
      rw [h1f]
      rfl
    simp only [processCard]
    rw [h1f]
    simp [matchedUrls, List.filter_cons, hcm]

/-- Helper for C4: folding the card processor over one page's cards appends
exactly the page's contribution. -/
theorem foldl_processCard (cards : List Card) (links : List String) :
    cards.foldl processCard links = links ++ matchedUrls cards := by
  induction cards generalizing links with
  | nil => simp [matchedUrls]
  | cons c cs ih =>
    rw [List.foldl_cons, processCard_eq, ih]
    by_cases h : cardMatches c = true <;>
      simp [matchedUrls, List.filter_cons, h]

/-- Helper for C4: the discovery loop appends, after the initial accumulator,
exactly the per-page contributions of the pages it processes, in page order. -/
theorem discoverLoop_eq (pages : List PageOutcome) (links : List String) :
    discoverLoop pages links
      = links ++ ((pagesTaken pages).map matchedUrls).flatten := by
  induction pages generalizing links with
  | nil => simp [discoverLoop, pagesTaken]
  | cons p rest ih =>
    cases p with
    | navFail => simp [discoverLoop, pagesTaken]
    | loaded cards =>
      by_cases hc : cards.isEmpty
      · simp [discoverLoop, pagesTaken, hc]
      · simp only [discoverLoop, pagesTaken, if_neg hc]
        rw [foldl_processCard, ih]
        simp

/-- A page stream on which the same card — hence the same detail URL —
appears on two consecutive pages. -/
def dupPages : List PageOutcome :=
  [ PageOutcome.loaded [⟨"Selenium QA Engineer", "abc"⟩]
  , PageOutcome.loaded [⟨"Selenium QA Engineer", "abc"⟩] ]

/-- C4 counterexample: on a page stream repeating one matching card on two
pages, the Discovery Sequence contains the same detail URL twice — the loop
performs no membership check, so a URL already present in the running
sequence is appended again, refuting first-seen-wins distinctness. -/
theorem C4_counterexample : ¬ (job_detail_links dupPages).Nodup := by decide

/-- C4 amended: the Discovery Sequence is exactly the in-order concatenation,
over the pages processed (up to the first navigation failure or empty page),
of one detail URL per keyword-matching card with a non-empty identifier, in
page-then-card order; a recurring detail URL is appended at every
occurrence — the values are not necessarily distinct. -/
theorem C4_page_then_card_order (pages : List PageOutcome) :
    job_detail_links pages = ((pagesTaken pages).map matchedUrls).flatten := by
  simpa [job_detail_links] using discoverLoop_eq pages []

/-- Helper for C9: when the Job Record links accumulated so far are distinct
and each of them is already in the in-memory ledger, the loop keeps the
record links distinct — a link is recorded at most once because recording it
inserts it into the ledger, and the ledger gates every later occurrence. -/
theorem runCandidates_links_nodup (apply_mode : String)
    (cands : List (String × CandidateEnv)) (s : WorkState)
    (hnd : (s.detailed_job_data.map JobRecord.link).Nodup)
    (hsub : ∀ r ∈ s.detailed_job_data, r.link ∈ s.applied_jobs) :
    ((runCandidates apply_mode cands s).detailed_job_data.map JobRecord.link).Nodup := by
  induction cands generalizing s with
  | nil => exact hnd
  | cons p rest ih =>
    obtain ⟨link, env⟩ := p
    by_cases hmem : link ∈ s.applied_jobs
    · have hrec : runCandidates apply_mode ((link, env) :: rest) s
          = runCandidates apply_mode rest s := by
        simp only [runCandidates, processCandidate, if_pos hmem]
      rw [hrec]
      exact ih s hnd hsub
    · cases hnav : env.nav_ok with
      | false =>
        have hrec : runCandidates apply_mode ((link, env) :: rest) s = s := by
          simp [runCandidates, processCandidate, hmem, hnav]
        rw [hrec]
        exact hnd
      | true =>
        have hrec : runCandidates apply_mode ((link, env) :: rest) s
            = runCandidates apply_mode rest
                { applied_jobs := insert link s.applied_jobs
                , applied_jobs_file := insert link s.applied_jobs
                , detailed_job_data := s.detailed_job_data ++
                    [{ link := link, title := job_title_text env
                     , skills := skills_text env
                     , applied := if apply_job apply_mode env.user_choice
                          then "Yes" else "No" }] } := by
          simp only [runCandidates, processCandidate, if_neg hmem, hnav]
          simp
        rw [hrec]
        apply ih
        · simp only [List.map_append, List.map_cons, List.map_nil]
          rw [List.nodup_append]
          refine ⟨hnd, List.nodup_singleton _, ?_⟩
          intro a ha hb
          rcases List.mem_singleton.mp hb with rfl
          rcases List.mem_map.mp ha with ⟨r, hr, hra⟩
          exact hmem (hra ▸ hsub r hr)
        · intro r hr
          rcases List.mem_append.mp hr with h | h
          · exact Finset.mem_insert_of_mem (hsub r h)
          · rcases List.mem_singleton.mp h with rfl
            exact Finset.mem_insert_self _ _

/-- C9 (within-run dedup): starting from an empty Job Record list, the run
over any candidate sequence — duplicates included — produces Job Records
with pairwise distinct links: a detail URL occurring several times in the
Discovery Sequence is processed and recorded at most once, every occurrence
after the first being skipped by the ledger membership check. -/
theorem C9_processed_at_most_once (apply_mode : String)
    (cands : List (String × CandidateEnv)) (led file0 : Finset String) :
    (((runCandidates apply_mode cands
        ⟨led, file0, []⟩).detailed_job_data).map JobRecord.link).Nodup :=
  runCandidates_links_nodup apply_mode cands ⟨led, file0, []⟩ (by simp) (by simp)

end Dice
